import Mathlib

/-!
Shallow embedding of the Chain-Pilot Transaction Policy Evaluation Engine:
the rule matcher and policy evaluator of `src/rules/rule_engine.py` and the
AI spending controller of `src/security/ai_controls.py`.

Conventions of the embedding:
* Python floats are modelled as rationals (`ℚ`); the special value
  `float('inf')` used by threshold profiles is modelled by `PyNum.inf`.
* JSON-ish parameter dictionaries are association lists of `PValue`
  (numbers, strings, nested lists).  `dict.get(k, default)` is `Params.getD`.
* Fallible Python operations (`float(...)`, `int(...)`, `str.split` tuple
  unpacking, iterating a non-iterable) return `Except String _`; a raised
  exception is `Except.error`.
* The SQLite tables are modelled as in-memory lists of rows; every function
  that mutates a table returns the new table explicitly.
* Wall-clock inputs (`datetime.utcnow()`) are passed explicitly: the current
  hour for time-restriction rules, timestamps for approval bookkeeping.
  Timestamps in rows are integers, order-isomorphic to the ISO strings the
  code compares.
* Human-readable reason messages keep the shape of the source's f-strings
  but not Python's float formatting.
* Python string primitives `str.lower` and single-character `str.split` are
  modelled by `pyLower` and `pySplit` (ASCII fragment), and fractional
  threshold constants by `mkRat`, so that every definition evaluates inside
  the kernel.
-/

/-- JSON-like values stored in rule parameter dictionaries and transactions. -/
inductive PValue where
  | num (q : ℚ)
  | str (s : String)
  | list (elems : List PValue)

/-- A parameter dictionary: association list from keys to values. -/
def Params : Type := List (String × PValue)

/-- Python `d.get(key, default)`. -/
def Params.getD (ps : Params) (k : String) (d : PValue) : PValue :=
  match List.find? (fun p => p.1 == k) ps with
  | some p => p.2
  | none => d

/-- Digits of a string interpreted as a natural number (base 10). -/
def natOfDigits (cs : List Char) : ℕ :=
  cs.foldl (fun n c => 10 * n + (c.toNat - 48)) 0

/-- All characters are ASCII digits. -/
def allDigits (cs : List Char) : Bool :=
  cs.all (·.isDigit)

/-- Python `int(s)` on a string: optional sign followed by digits. -/
def parsePyInt (s : String) : Option ℤ :=
  let (neg, body) :=
    match s.data with
    | '-' :: rest => (true, rest)
    | '+' :: rest => (false, rest)
    | cs => (false, cs)
  if body ≠ [] ∧ allDigits body then
    some (if neg then -(natOfDigits body : ℤ) else (natOfDigits body : ℤ))
  else none

/-- ASCII lower-casing of one character, as Python `str.lower` acts on the
hex addresses and keys this code passes it. -/
def pyCharLower (c : Char) : Char :=
  if 'A' ≤ c ∧ c ≤ 'Z' then Char.ofNat (c.toNat + 32) else c

/-- Python `s.lower()` (ASCII fragment). -/
def pyLower (s : String) : String :=
  String.mk (s.data.map pyCharLower)

/-- Characters split on a one-character separator. -/
def splitChar (sep : Char) : List Char → List (List Char)
  | [] => [[]]
  | c :: rest =>
      match splitChar sep rest with
      | [] => [[c]]
      | g :: gs => if c = sep then [] :: g :: gs else (c :: g) :: gs

/-- Python `s.split(sep)` for the one-character separators this code uses. -/
def pySplit (s : String) (sep : Char) : List String :=
  (splitChar sep s.data).map fun cs => String.mk cs

/-- Python `float(s)` on a string: optional sign, digits, optional dot and
fractional digits (the fragment of float syntax the repository feeds it). -/
def parseDecimal (s : String) : Option ℚ :=
  let (neg, body) :=
    match s.data with
    | '-' :: rest => (true, String.mk rest)
    | '+' :: rest => (false, String.mk rest)
    | _ => (false, s)
  let signed : ℚ → ℚ := fun q => if neg then -q else q
  match pySplit body '.' with
  | [a] =>
      if a.data ≠ [] ∧ allDigits a.data then some (signed (natOfDigits a.data)) else none
  | [a, b] =>
      if (a.data ≠ [] ∨ b.data ≠ []) ∧ allDigits a.data ∧ allDigits b.data then
        some (signed ((natOfDigits a.data : ℚ) + (natOfDigits b.data : ℚ) / (10 : ℚ) ^ b.data.length))
      else none
  | _ => none

/-- Python `float(v)` on a parameter value; raises on non-numeric input. -/
def pyFloat : PValue → Except String ℚ
  | .num q => .ok q
  | .str s =>
      match parseDecimal s with
      | some q => .ok q
      | none => .error ("could not convert string to float: " ++ s)
  | .list _ => .error "float() argument must be a string or a real number"

/-- Python `int(v)`: truncation toward zero for numbers, digit parsing for
strings, error otherwise. -/
def pyInt : PValue → Except String ℤ
  | .num q => .ok (if q < 0 then ⌈q⌉ else ⌊q⌋)
  | .str s =>
      match parsePyInt s with
      | some n => .ok n
      | none => .error ("invalid literal for int() with base 10: " ++ s)
  | .list _ => .error "int() argument must be a string or a number"

/-- Rendering a parameter value into an f-string slot (only the fact that a
non-string value never collides with the fixed context keys matters). -/
def pyFormat : PValue → String
  | .str s => s
  | .num q => "#num:" ++ toString q.num ++ "/" ++ toString q.den
  | .list _ => "#list"

/-- Python `[addr.lower() for addr in v]`: a list of strings is lowered
element-wise, a string is iterated character-wise, anything else raises. -/
def lowerElems : List PValue → Except String (List String)
  | [] => .ok []
  | .str s :: rest => do
      let r ← lowerElems rest
      .ok (pyLower s :: r)
  | .num _ :: _ => .error "lower is not an attribute of a number"
  | .list _ :: _ => .error "lower is not an attribute of a list"

/-- Python iteration over `parameters.get('addresses', [])` with `.lower()`. -/
def pyLowerList : PValue → Except String (List String)
  | .list xs => lowerElems xs
  | .str s => .ok (s.data.map fun c => String.singleton (pyCharLower c))
  | .num _ => .error "number is not iterable"

/-- The six rule kinds of `RuleType` in `rule_engine.py`. -/
inductive RuleType where
  | spending_limit
  | address_whitelist
  | address_blacklist
  | time_restriction
  | amount_threshold
  | daily_transaction_count
deriving DecidableEq, Repr

/-- The three rule actions of `RuleAction` in `rule_engine.py`. -/
inductive RuleAction where
  | allow
  | deny
  | require_approval
deriving DecidableEq, Repr

/-- The four risk levels of `RiskLevel` in `rule_engine.py`. -/
inductive RiskLevel where
  | low
  | medium
  | high
  | critical
deriving DecidableEq, Repr

/-- Python `RuleType(s)`: the string-to-enum conversion in `Rule.__init__`,
`None` meaning the `ValueError` it raises on an unknown kind. -/
def parseRuleType (s : String) : Option RuleType :=
  if s = "spending_limit" then some .spending_limit
  else if s = "address_whitelist" then some .address_whitelist
  else if s = "address_blacklist" then some .address_blacklist
  else if s = "time_restriction" then some .time_restriction
  else if s = "amount_threshold" then some .amount_threshold
  else if s = "daily_transaction_count" then some .daily_transaction_count
  else none

/-- Python `RuleAction(s)` in `Rule.__init__`. -/
def parseRuleAction (s : String) : Option RuleAction :=
  if s = "allow" then some .allow
  else if s = "deny" then some .deny
  else if s = "require_approval" then some .require_approval
  else none

/-- A parsed in-memory rule (`class Rule`). -/
structure Rule where
  rule_id : ℤ
  rule_type : RuleType
  rule_name : String
  parameters : Params
  action : RuleAction
  enabled : Bool
  priority : ℤ

/-- A candidate transaction: the dictionary fields the rule checks read,
with the defaults `transaction.get` supplies. -/
structure Transaction where
  to_address : String := ""
  value : PValue := .num 0
  tx_hash : String := "pending"

/-- The evaluation context built by `RuleEngine._build_context`. -/
structure Context where
  daily_spending : ℚ := 0
  weekly_spending : ℚ := 0
  monthly_spending : ℚ := 0
  daily_transaction_count : ℤ := 0

/-- Python `context.get(f'{limit_type}_spending', 0)` against the context
dictionary built by `_build_context`. -/
def Context.periodSpending (ctx : Context) (t : String) : ℚ :=
  if t = "daily" then ctx.daily_spending
  else if t = "weekly" then ctx.weekly_spending
  else if t = "monthly" then ctx.monthly_spending
  else 0

/-- `Rule._check_spending_limit` (rule_engine.py lines 86-104). -/
def checkSpendingLimit (params : Params) (tx : Transaction) (ctx : Context) :
    Except String (Bool × String) := do
  let limit_type := pyFormat (params.getD "type" (.str "daily"))
  let limit_amount ← pyFloat (params.getD "amount" (.num 0))
  let tx_amount ← pyFloat tx.value
  if limit_type = "per_transaction" then
    if tx_amount > limit_amount then
      .ok (false, "Transaction amount exceeds per-transaction limit")
    else
      .ok (true, "Within per-transaction limit")
  else
    let period_spending := ctx.periodSpending limit_type
    let total_after_tx := period_spending + tx_amount
    if total_after_tx > limit_amount then
      .ok (false, "Would exceed " ++ limit_type ++ " limit")
    else
      .ok (true, "Within " ++ limit_type ++ " limit")

/-- `Rule._check_whitelist` (rule_engine.py lines 106-114). -/
def checkWhitelist (params : Params) (tx : Transaction) :
    Except String (Bool × String) := do
  let allowed_addresses ← pyLowerList (params.getD "addresses" (.list []))
  let to_address := pyLower tx.to_address
  if allowed_addresses.contains to_address then
    .ok (true, "Address is whitelisted")
  else
    .ok (false, "Address " ++ to_address ++ " not in whitelist")

/-- `Rule._check_blacklist` (rule_engine.py lines 116-124). -/
def checkBlacklist (params : Params) (tx : Transaction) :
    Except String (Bool × String) := do
  let blocked_addresses ← pyLowerList (params.getD "addresses" (.list []))
  let to_address := pyLower tx.to_address
  if blocked_addresses.contains to_address then
    .ok (false, "Address " ++ to_address ++ " is blacklisted")
  else
    .ok (true, "Address not blacklisted")

/-- `Rule._check_time_restriction` (rule_engine.py lines 126-141);
`currentHour` is `datetime.utcnow().hour`. -/
def checkTimeRestriction (params : Params) (currentHour : ℤ) :
    Except String (Bool × String) :=
  match params.getD "allowed_hours" (.str "00:00-23:59") with
  | .str allowed_hours =>
      match pySplit allowed_hours '-' with
      | [start_time, end_time] =>
          let startField := (pySplit start_time ':').headD ""
          let endField := (pySplit end_time ':').headD ""
          match parsePyInt startField, parsePyInt endField with
          | some start_hour, some end_hour =>
              if start_hour ≤ currentHour ∧ currentHour ≤ end_hour then
                .ok (true, "Within allowed time window")
              else
                .ok (false, "Outside allowed time window (" ++ allowed_hours ++ ")")
          | none, _ => .error ("invalid literal for int() with base 10: " ++ startField)
          | some _, none => .error ("invalid literal for int() with base 10: " ++ endField)
      | _ => .error "cannot unpack allowed_hours into start and end"
  | _ => .error "split is not an attribute of this value"

/-- `Rule._check_amount_threshold` (rule_engine.py lines 143-151). -/
def checkAmountThreshold (params : Params) (tx : Transaction) :
    Except String (Bool × String) := do
  let threshold ← pyFloat (params.getD "threshold" (.num 0))
  let tx_amount ← pyFloat tx.value
  if tx_amount ≥ threshold then
    .ok (false, "Amount exceeds threshold - requires approval")
  else
    .ok (true, "Below threshold")

/-- `Rule._check_daily_count` (rule_engine.py lines 153-161). -/
def checkDailyCount (params : Params) (ctx : Context) :
    Except String (Bool × String) := do
  let max_count ← pyInt (params.getD "max_count" (.num 10))
  let current_count := ctx.daily_transaction_count
  if current_count ≥ max_count then
    .ok (false, "Daily transaction limit reached")
  else
    .ok (true, "Within daily transaction limit")

/-- `Rule.check` (rule_engine.py lines 61-84): dispatch on the rule kind,
after the disabled short-circuit. -/
def Rule.check (r : Rule) (tx : Transaction) (ctx : Context) (currentHour : ℤ) :
    Except String (Bool × String) :=
  if ¬ r.enabled then
    .ok (true, "Rule disabled")
  else
    match r.rule_type with
    | .spending_limit => checkSpendingLimit r.parameters tx ctx
    | .address_whitelist => checkWhitelist r.parameters tx
    | .address_blacklist => checkBlacklist r.parameters tx
    | .time_restriction => checkTimeRestriction r.parameters currentHour
    | .amount_threshold => checkAmountThreshold r.parameters tx
    | .daily_transaction_count => checkDailyCount r.parameters ctx

/-- The running-action update of `evaluate_transaction`
(rule_engine.py lines 313-317): most-restrictive-wins. -/
def updateAction (current : RuleAction) (ra : RuleAction) : RuleAction :=
  if ra = .deny then .deny
  else if ra = .require_approval then
    if current = .deny then current else .require_approval
  else current

/-- The amount-tier and frequency bonuses and banding of
`RuleEngine._calculate_risk` (rule_engine.py lines 396-432). -/
def calculateRisk (tx : Transaction) (ctx : Context) (failed_rules : List String) :
    Except String RiskLevel := do
  let value ← pyFloat tx.value
  let base : ℤ := (failed_rules.length : ℤ) * 25
  let amountBonus : ℤ :=
    if value > 10 then 30 else if value > 1 then 15 else if value > mkRat 1 10 then 5 else 0
  let freqBonus : ℤ :=
    if ctx.daily_transaction_count > 50 then 20
    else if ctx.daily_transaction_count > 20 then 10 else 0
  let risk_score := base + amountBonus + freqBonus
  if risk_score ≥ 75 then .ok .critical
  else if risk_score ≥ 50 then .ok .high
  else if risk_score ≥ 25 then .ok .medium
  else .ok .low

/-- The verdict dictionary returned by `RuleEngine.evaluate_transaction`. -/
structure Verdict where
  allowed : Bool
  action : RuleAction
  risk_level : RiskLevel
  failed_rules : List String
  reasons : List String
  rules_checked : ℕ
  rules_passed : ℕ
deriving DecidableEq, Repr

/-- The per-rule loop of `evaluate_transaction` (rule_engine.py lines
297-317), threading the accumulated failed names, reasons and running
action; a raised exception aborts the loop. -/
def runChecks (tx : Transaction) (ctx : Context) (currentHour : ℤ) :
    List Rule → List String × List String × RuleAction →
    Except String (List String × List String × RuleAction)
  | [], acc => .ok acc
  | r :: rest, (failed_rules, reasons, action) =>
    match r.check tx ctx currentHour with
    | .error e => .error e
    | .ok (passed, reason) =>
        if passed then
          runChecks tx ctx currentHour rest (failed_rules, reasons, action)
        else
          runChecks tx ctx currentHour rest
            (failed_rules ++ [r.rule_name], reasons ++ [reason], updateAction action r.action)

/-- `RuleEngine.evaluate_transaction` (rule_engine.py lines 267-337) over an
already-fetched rule list; audit logging is a side effect with no bearing on
the verdict and is not modelled. -/
def evaluate_transaction (rules : List Rule) (tx : Transaction) (ctx : Context)
    (currentHour : ℤ) : Except String Verdict := do
  let (failed_rules, reasons, action) ← runChecks tx ctx currentHour rules ([], [], .allow)
  let risk_level ← calculateRisk tx ctx failed_rules
  let allowed := action = .allow
  .ok { allowed := allowed
        action := action
        risk_level := risk_level
        failed_rules := failed_rules
        reasons := reasons
        rules_checked := rules.length
        rules_passed := rules.length - failed_rules.length }

/-- A row of the `rules` SQLite table: `rule_type` and `action` are stored
as raw strings (no validation happens at insert time). -/
structure RuleRow where
  id : ℤ
  rule_type : String
  rule_name : String
  parameters : Params
  action : String
  enabled : Bool
  priority : ℤ

/-- `RuleEngine.create_rule` (rule_engine.py lines 211-237): INSERT the row
as given and return the fresh id; AUTOINCREMENT is modelled as one more than
the largest id in the table. -/
def create_rule (store : List RuleRow) (rule_type rule_name : String)
    (parameters : Params) (action : String) (enabled : Bool) (priority : ℤ) :
    ℤ × List RuleRow :=
  let rule_id := (store.foldl (fun m r => max m r.id) 0) + 1
  (rule_id,
   store ++ [{ id := rule_id, rule_type := rule_type, rule_name := rule_name,
               parameters := parameters, action := action, enabled := enabled,
               priority := priority }])

/-- Stable insertion of a row into a priority-descending list
(rows of equal priority keep their original relative order, matching
`ORDER BY priority DESC` over rowid order). -/
def insertByPriority (r : RuleRow) : List RuleRow → List RuleRow
  | [] => [r]
  | x :: xs => if r.priority > x.priority then r :: x :: xs else x :: insertByPriority r xs

/-- Priority-descending stable sort of the rule rows. -/
def sortByPriority (rows : List RuleRow) : List RuleRow :=
  rows.foldl (fun acc r => insertByPriority r acc) []

/-- `Rule(...)` construction in `RuleEngine.get_rules` (rule_engine.py lines
253-263): the enum conversions raise `ValueError` on unknown strings. -/
def rowToRule (row : RuleRow) : Except String Rule :=
  match parseRuleType row.rule_type with
  | none => .error (row.rule_type ++ " is not a valid RuleType")
  | some rt =>
      match parseRuleAction row.action with
      | none => .error (row.action ++ " is not a valid RuleAction")
      | some ra =>
          .ok { rule_id := row.id, rule_type := rt, rule_name := row.rule_name,
                parameters := row.parameters, action := ra, enabled := row.enabled,
                priority := row.priority }

/-- Parsing of every fetched row in `get_rules`; the first bad row raises. -/
def rowsToRules : List RuleRow → Except String (List Rule)
  | [] => .ok []
  | row :: rest => do
      let rule ← rowToRule row
      let rules ← rowsToRules rest
      .ok (rule :: rules)

/-- `RuleEngine.get_rules` (rule_engine.py lines 239-265): filter on
`enabled`, order by priority descending, parse each row. -/
def get_rules (store : List RuleRow) (enabled_only : Bool) :
    Except String (List Rule) :=
  let rows := if enabled_only then store.filter (·.enabled) else store
  rowsToRules (sortByPriority rows)

/-- A Python float that may be `float('inf')`, as used by the threshold
profiles in `ai_controls.py`. -/
inductive PyNum where
  | fin (q : ℚ)
  | inf
deriving DecidableEq, Repr

/-- Strict greater-than of a finite number against a possibly-infinite one. -/
def PyNum.ltOf (a : ℚ) : PyNum → Bool
  | .fin q => a > q
  | .inf => false

/-- The four security levels of `AISecurityLevel`. -/
inductive AISecurityLevel where
  | unrestricted
  | moderate
  | strict
  | lockdown
deriving DecidableEq, Repr

/-- The threshold profile of `AISpendingController._get_thresholds`. -/
structure Thresholds where
  max_single_tx : PyNum
  hourly_limit : PyNum
  daily_limit : PyNum
  approval_threshold : PyNum
  max_tx_per_hour : ℕ
  require_approval : Bool
deriving DecidableEq, Repr

/-- `AISpendingController._get_thresholds` (ai_controls.py lines 49-85). -/
def getThresholds : AISecurityLevel → Thresholds
  | .unrestricted =>
      { max_single_tx := .inf, hourly_limit := .inf, daily_limit := .inf,
        approval_threshold := .inf, max_tx_per_hour := 1000, require_approval := false }
  | .moderate =>
      { max_single_tx := .fin 1, hourly_limit := .fin 5, daily_limit := .fin 20,
        approval_threshold := .fin (mkRat 1 2), max_tx_per_hour := 50, require_approval := false }
  | .strict =>
      { max_single_tx := .fin (mkRat 1 2), hourly_limit := .fin 2, daily_limit := .fin 10,
        approval_threshold := .fin (mkRat 1 10), max_tx_per_hour := 20, require_approval := false }
  | .lockdown =>
      { max_single_tx := .fin (mkRat 1 10), hourly_limit := .fin (mkRat 1 2),
        daily_limit := .fin 2, approval_threshold := .fin (mkRat 1 100),
        max_tx_per_hour := 5, require_approval := true }

/-- The `ApprovalStatus` enum of ai_controls.py. -/
inductive ApprovalStatus where
  | pending
  | approved
  | rejected
  | expired
deriving DecidableEq, Repr

/-- A row of the `approval_requests` table. -/
structure ApprovalRequest where
  id : String
  timestamp : ℤ
  expires_at : ℤ
  from_address : String
  to_address : String
  amount : ℚ
  currency : String
  reason : String
  status : ApprovalStatus
  approved_at : Option ℤ
  approved_by : Option String
deriving DecidableEq, Repr

/-- `AISpendingController._create_approval_request` (ai_controls.py lines
251-276): the INSERTed row, with the generated UUID and the two timestamps
(`now` and `now + 24h`) supplied by the caller of the model. -/
def mkApprovalRequest (newId : String) (now expires : ℤ)
    (from_address to_address : String) (amount : ℚ) (currency reason : String) :
    ApprovalRequest :=
  { id := newId, timestamp := now, expires_at := expires,
    from_address := from_address, to_address := to_address,
    amount := amount, currency := currency, reason := reason,
    status := .pending, approved_at := none, approved_by := none }

/-- The result dictionary of `check_ai_transaction`; `reason_code` is the
reason string recorded on the opened approval request (the human-readable
`reason` message of the dictionary is elided). -/
structure CheckResult where
  allowed : Bool
  requires_approval : Bool
  approval_id : Option String
  reason_code : String
deriving DecidableEq, Repr

/-- `AISpendingController.check_ai_transaction` (ai_controls.py lines
133-224): the chain of five guards, each failing guard returning immediately
after opening an approval request; the spending aggregates are passed in as
the values `_get_spending`/`_get_transaction_count` returned. -/
def check_ai_transaction (th : Thresholds) (hourly_spent daily_spent : ℚ)
    (hourly_tx_count : ℕ) (from_address to_address : String) (amount : ℚ)
    (currency : String) (reqs : List ApprovalRequest) (newId : String)
    (now expires : ℤ) : CheckResult × List ApprovalRequest :=
  if PyNum.ltOf amount th.max_single_tx then
    ({ allowed := false, requires_approval := true, approval_id := some newId,
       reason_code := "exceeds_single_tx_limit" },
     reqs ++ [mkApprovalRequest newId now expires from_address to_address amount
                currency "exceeds_single_tx_limit"])
  else if PyNum.ltOf (hourly_spent + amount) th.hourly_limit then
    ({ allowed := false, requires_approval := true, approval_id := some newId,
       reason_code := "exceeds_hourly_limit" },
     reqs ++ [mkApprovalRequest newId now expires from_address to_address amount
                currency "exceeds_hourly_limit"])
  else if PyNum.ltOf (daily_spent + amount) th.daily_limit then
    ({ allowed := false, requires_approval := true, approval_id := some newId,
       reason_code := "exceeds_daily_limit" },
     reqs ++ [mkApprovalRequest newId now expires from_address to_address amount
                currency "exceeds_daily_limit"])
  else if hourly_tx_count ≥ th.max_tx_per_hour then
    ({ allowed := false, requires_approval := true, approval_id := some newId,
       reason_code := "too_frequent" },
     reqs ++ [mkApprovalRequest newId now expires from_address to_address amount
                currency "too_frequent"])
  else if PyNum.ltOf amount th.approval_threshold ∨ th.require_approval then
    ({ allowed := false, requires_approval := true, approval_id := some newId,
       reason_code := "requires_approval" },
     reqs ++ [mkApprovalRequest newId now expires from_address to_address amount
                currency "requires_approval"])
  else
    ({ allowed := true, requires_approval := false, approval_id := none,
       reason_code := "within_limits" },
     reqs)

/-- Modelled from the spec's wording of §4.5 for comparison with the code:
the five gates as an ordered list of (condition, reason) pairs, the first
failing gate determining the outcome and opening a pending approval request,
no gate failing meaning allowed with the request store untouched. -/
def gateList (th : Thresholds) (hourly_spent daily_spent : ℚ)
    (hourly_tx_count : ℕ) (amount : ℚ) : List (Bool × String) :=
  [ (PyNum.ltOf amount th.max_single_tx, "exceeds_single_tx_limit"),
    (PyNum.ltOf (hourly_spent + amount) th.hourly_limit, "exceeds_hourly_limit"),
    (PyNum.ltOf (daily_spent + amount) th.daily_limit, "exceeds_daily_limit"),
    (decide (hourly_tx_count ≥ th.max_tx_per_hour), "too_frequent"),
    (PyNum.ltOf amount th.approval_threshold || th.require_approval, "requires_approval") ]

/-- Modelled from the spec's wording of §4.5: first-failing-gate semantics
over `gateList`. -/
def checkGatesSpec (th : Thresholds) (hourly_spent daily_spent : ℚ)
    (hourly_tx_count : ℕ) (from_address to_address : String) (amount : ℚ)
    (currency : String) (reqs : List ApprovalRequest) (newId : String)
    (now expires : ℤ) : CheckResult × List ApprovalRequest :=
  match List.find? (fun g => g.1) (gateList th hourly_spent daily_spent hourly_tx_count amount) with
  | some g =>
      ({ allowed := false, requires_approval := true, approval_id := some newId,
         reason_code := g.2 },
       reqs ++ [mkApprovalRequest newId now expires from_address to_address amount
                  currency g.2])
  | none =>
      ({ allowed := true, requires_approval := false, approval_id := none,
         reason_code := "within_limits" }, reqs)

/-- A row of the `ai_spending_history` table. -/
structure HistoryRecord where
  timestamp : ℤ
  from_address : String
  to_address : String
  amount : ℚ
  currency : String
  approved : Bool
  approval_id : Option String
deriving DecidableEq, Repr

/-- `AISpendingController._get_spending` (ai_controls.py lines 226-237):
sum of `amount` over rows with `timestamp > cutoff AND approved = 1`. -/
def getSpending (hist : List HistoryRecord) (cutoff : ℤ) : ℚ :=
  ((hist.filter fun r => decide (cutoff < r.timestamp) && r.approved).map
    (fun r => r.amount)).sum

/-- `AISpendingController._get_transaction_count` (ai_controls.py lines
239-249): COUNT over rows with `timestamp > cutoff` (no approved filter). -/
def getTransactionCount (hist : List HistoryRecord) (cutoff : ℤ) : ℕ :=
  (hist.filter fun r => decide (cutoff < r.timestamp)).length

/-- Stable insertion of an approval request into a timestamp-descending
list, matching `ORDER BY timestamp DESC`. -/
def insertByTimestamp (r : ApprovalRequest) : List ApprovalRequest → List ApprovalRequest
  | [] => [r]
  | x :: xs => if r.timestamp > x.timestamp then r :: x :: xs else x :: insertByTimestamp r xs

/-- Timestamp-descending stable sort of approval requests. -/
def sortByTimestamp (reqs : List ApprovalRequest) : List ApprovalRequest :=
  reqs.foldl (fun acc r => insertByTimestamp r acc) []

/-- `AISpendingController.get_approval_requests` (ai_controls.py lines
302-313): SELECT rows (optionally filtered by status) ordered by timestamp
descending; the second component is the table after the call, which the
SELECT leaves untouched. -/
def get_approval_requests (reqs : List ApprovalRequest)
    (status : Option ApprovalStatus) :
    List ApprovalRequest × List ApprovalRequest :=
  (sortByTimestamp
    (match status with
     | some st => reqs.filter (fun r => r.status = st)
     | none => reqs),
   reqs)

/-- `AISpendingController.approve_request` (ai_controls.py lines 315-329):
UPDATE status/approved_at/approved_by WHERE id matches AND status is
pending; returns `rowcount > 0` with the updated table. -/
def approve_request (reqs : List ApprovalRequest) (approval_id : String)
    (approved_by : String) (now : ℤ) : Bool × List ApprovalRequest :=
  (reqs.any (fun r => r.id = approval_id ∧ r.status = .pending),
   reqs.map fun r =>
     if r.id = approval_id ∧ r.status = .pending then
       { r with status := .approved, approved_at := some now,
                approved_by := some approved_by }
     else r)

/-- `AISpendingController.reject_request` (ai_controls.py lines 331-345). -/
def reject_request (reqs : List ApprovalRequest) (approval_id : String)
    (approved_by : String) (now : ℤ) : Bool × List ApprovalRequest :=
  (reqs.any (fun r => r.id = approval_id ∧ r.status = .pending),
   reqs.map fun r =>
     if r.id = approval_id ∧ r.status = .pending then
       { r with status := .rejected, approved_at := some now,
                approved_by := some approved_by }
     else r)

/-- Modelled from the spec's wording of §4.4: the amount tier bonus
0/5/15/30 for value at most 0.1 / at most 1 / at most 10 / above 10. -/
def amountBonusSpec (q : ℚ) : ℤ :=
  if q ≤ mkRat 1 10 then 0 else if q ≤ 1 then 5 else if q ≤ 10 then 15 else 30

/-- Modelled from the spec's wording of §4.4: the frequency bonus 0/10/20
for a daily count at most 20 / at most 50 / above 50. -/
def freqBonusSpec (n : ℤ) : ℤ :=
  if n ≤ 20 then 0 else if n ≤ 50 then 10 else 20

/-- Modelled from the spec's wording of §4.4: banding of the risk score as
low below 25, medium below 50, high below 75, critical at 75 and above. -/
def riskBandSpec (score : ℤ) : RiskLevel :=
  if score < 25 then .low
  else if score < 50 then .medium
  else if score < 75 then .high
  else .critical

/-- Severity order of the risk levels, for stating monotonicity. -/
def RiskLevel.rank : RiskLevel → ℕ
  | .low => 0
  | .medium => 1
  | .high => 2
  | .critical => 3

/-- Whether a rule's check fails cleanly (returns passed = false rather than
passing or raising) on the given transaction, context and hour. -/
def checkFailsB (tx : Transaction) (ctx : Context) (currentHour : ℤ) (r : Rule) : Bool :=
  match r.check tx ctx currentHour with
  | .ok (false, _) => true
  | _ => false

/-- The reason string a rule's check produced (junk if the check raised). -/
def reasonOf (tx : Transaction) (ctx : Context) (currentHour : ℤ) (r : Rule) : String :=
  match r.check tx ctx currentHour with
  | .ok (_, m) => m
  | .error _ => ""

/-- Kind-specific shape validity of a rule's parameters: exactly the
conditions under which the corresponding check function cannot raise
(given that the transaction's own value parses). -/
def shapeValid (r : Rule) : Bool :=
  match r.rule_type with
  | .spending_limit => (pyFloat (r.parameters.getD "amount" (.num 0))).isOk
  | .address_whitelist => (pyLowerList (r.parameters.getD "addresses" (.list []))).isOk
  | .address_blacklist => (pyLowerList (r.parameters.getD "addresses" (.list []))).isOk
  | .time_restriction =>
      match r.parameters.getD "allowed_hours" (.str "00:00-23:59") with
      | .str s =>
          match pySplit s '-' with
          | [a, b] =>
              (parsePyInt ((pySplit a ':').headD "")).isSome &&
              (parsePyInt ((pySplit b ':').headD "")).isSome
          | _ => false
      | _ => false
  | .amount_threshold => (pyFloat (r.parameters.getD "threshold" (.num 0))).isOk
  | .daily_transaction_count => (pyInt (r.parameters.getD "max_count" (.num 10))).isOk

/-- A concrete benign transaction used by the witnesses. -/
def tx0 : Transaction := { to_address := "0xabc", value := .num 1 }

/-- A concrete empty-history context used by the witnesses. -/
def ctx0 : Context := {}

/-- A whitelist rule with an empty address list: its check always fails
cleanly.  Action deny. -/
def denyRule : Rule :=
  { rule_id := 1, rule_type := .address_whitelist, rule_name := "deny-wl",
    parameters := [("addresses", .list [])], action := .deny,
    enabled := true, priority := 0 }

/-- Like `denyRule` but with action require_approval. -/
def raRule : Rule :=
  { rule_id := 2, rule_type := .address_whitelist, rule_name := "ra-wl",
    parameters := [("addresses", .list [])], action := .require_approval,
    enabled := true, priority := 5 }

/-- Like `denyRule` but with action allow. -/
def allowFailRule : Rule :=
  { rule_id := 3, rule_type := .address_whitelist, rule_name := "allow-wl",
    parameters := [("addresses", .list [])], action := .allow,
    enabled := true, priority := 0 }

/-- A spending-limit rule whose `amount` parameter is a non-numeric string:
`float('abc')` raises at evaluation time. -/
def badAmountRule : Rule :=
  { rule_id := 4, rule_type := .spending_limit, rule_name := "bad-amount",
    parameters := [("type", .str "per_transaction"), ("amount", .str "abc")],
    action := .deny, enabled := true, priority := 0 }

/-- A stored approval request that is still pending although its
`expires_at` (-1) lies before the read time (0). -/
def pendingPastReq : ApprovalRequest :=
  { id := "X", timestamp := -2, expires_at := -1, from_address := "0xfrom",
    to_address := "0xto", amount := 1, currency := "ETH",
    reason := "requires_approval", status := .pending,
    approved_at := none, approved_by := none }

/-- An AI spending history record that was not approved. -/
def unapprovedRec : HistoryRecord :=
  { timestamp := 1, from_address := "0xfrom", to_address := "0xto",
    amount := 1, currency := "ETH", approved := false, approval_id := none }

/-- The running action after folding `updateAction` over a list of rules. -/
def foldAction (l : List Rule) (a : RuleAction) : RuleAction :=
  l.foldl (fun acc r => updateAction acc r.action) a

lemma updateAction_eq_deny (a b : RuleAction) :
    updateAction a b = .deny ↔ a = .deny ∨ b = .deny := by
  cases a <;> cases b <;> simp [updateAction]

lemma updateAction_eq_ra (a b : RuleAction) :
    updateAction a b = .require_approval ↔
      (a = .require_approval ∨ b = .require_approval) ∧ a ≠ .deny ∧ b ≠ .deny := by
  cases a <;> cases b <;> simp [updateAction]

lemma updateAction_eq_allow (a b : RuleAction) :
    updateAction a b = .allow ↔ a = .allow ∧ b = .allow := by
  cases a <;> cases b <;> simp [updateAction]

lemma updateAction_allow_right (a : RuleAction) : updateAction a .allow = a := by
  cases a <;> simp [updateAction]

lemma foldAction_eq_deny (l : List Rule) : ∀ a : RuleAction,
    foldAction l a = .deny ↔ a = .deny ∨ ∃ r ∈ l, r.action = .deny := by
  induction l with
  | nil => intro a; simp [foldAction]
  | cons x xs ih =>
      intro a
      have : foldAction (x :: xs) a = foldAction xs (updateAction a x.action) := rfl
      rw [this, ih, updateAction_eq_deny]
      simp only [List.exists_mem_cons_iff]
      tauto

lemma foldAction_eq_allow (l : List Rule) : ∀ a : RuleAction,
    foldAction l a = .allow ↔ a = .allow ∧ ∀ r ∈ l, r.action = .allow := by
  induction l with
  | nil => intro a; simp [foldAction]
  | cons x xs ih =>
      intro a
      have : foldAction (x :: xs) a = foldAction xs (updateAction a x.action) := rfl
      rw [this, ih, updateAction_eq_allow]
      simp only [List.forall_mem_cons]
      tauto

lemma foldAction_eq_ra (l : List Rule) : ∀ a : RuleAction,
    foldAction l a = .require_approval ↔
      (a = .require_approval ∨ ∃ r ∈ l, r.action = .require_approval) ∧
      a ≠ .deny ∧ ∀ r ∈ l, r.action ≠ .deny := by
  induction l with
  | nil => intro a; cases a <;> simp [foldAction]
  | cons x xs ih =>
      intro a
      have : foldAction (x :: xs) a = foldAction xs (updateAction a x.action) := rfl
      rw [this, ih]
      simp only [updateAction_eq_ra, Ne, updateAction_eq_deny,
        List.exists_mem_cons_iff, List.forall_mem_cons]
      tauto

lemma runChecks_ok_char (tx : Transaction) (ctx : Context) (hour : ℤ) :
    ∀ (rules : List Rule) (fr rs : List String) (a : RuleAction)
      (out : List String × List String × RuleAction),
      runChecks tx ctx hour rules (fr, rs, a) = .ok out →
      out.1 = fr ++ (rules.filter (checkFailsB tx ctx hour)).map (fun r => r.rule_name) ∧
      out.2.1 = rs ++ (rules.filter (checkFailsB tx ctx hour)).map (reasonOf tx ctx hour) ∧
      out.2.2 = foldAction (rules.filter (checkFailsB tx ctx hour)) a ∧
      ∀ r ∈ rules, (r.check tx ctx hour).isOk = true := by
  intro rules
  induction rules with
  | nil =>
      intro fr rs a out h
      simp only [runChecks, Except.ok.injEq] at h
      subst h
      simp [foldAction]
  | cons x xs ih =>
      intro fr rs a out h
      cases hc : x.check tx ctx hour with
      | error e =>
          simp only [runChecks, hc] at h
          exact Except.noConfusion h
      | ok pr =>
          obtain ⟨p, m⟩ := pr
          cases p with
          | true =>
              simp only [runChecks, hc, if_true] at h
              have hfail : checkFailsB tx ctx hour x = false := by
                simp [checkFailsB, hc]
              obtain ⟨h1, h2, h3, h4⟩ := ih fr rs a out h
              refine ⟨?_, ?_, ?_, ?_⟩
              · simpa [List.filter_cons, hfail] using h1
              · simpa [List.filter_cons, hfail] using h2
              · simpa [List.filter_cons, hfail] using h3
              · intro r hr
                rcases List.mem_cons.mp hr with rfl | hr
                · simp [hc, Except.isOk, Except.toBool]
                · exact h4 r hr
          | false =>
              simp only [runChecks, hc, if_false] at h
              have hfail : checkFailsB tx ctx hour x = true := by
                simp [checkFailsB, hc]
              have hm : reasonOf tx ctx hour x = m := by
                simp [reasonOf, hc]
              obtain ⟨h1, h2, h3, h4⟩ := ih _ _ _ out h
              refine ⟨?_, ?_, ?_, ?_⟩
              · rw [h1]; simp [List.filter_cons, hfail]
              · rw [h2]; simp [List.filter_cons, hfail, hm]
              · rw [h3]; simp only [List.filter_cons, hfail, if_true]; rfl
              · intro r hr
                rcases List.mem_cons.mp hr with rfl | hr
                · simp [hc, Except.isOk, Except.toBool]
                · exact h4 r hr

lemma except_ok_bind {α β : Type} (a : α) (f : α → Except String β) :
    (Except.ok a >>= f) = f a := rfl

lemma except_error_bind {α β : Type} (e : String) (f : α → Except String β) :
    ((Except.error e : Except String α) >>= f) = Except.error e := rfl

lemma evaluate_ok_char (rules : List Rule) (tx : Transaction) (ctx : Context)
    (hour : ℤ) (v : Verdict)
    (h : evaluate_transaction rules tx ctx hour = .ok v) :
    v.action = foldAction (rules.filter (checkFailsB tx ctx hour)) .allow ∧
    v.failed_rules = (rules.filter (checkFailsB tx ctx hour)).map (fun r => r.rule_name) ∧
    v.reasons = (rules.filter (checkFailsB tx ctx hour)).map (reasonOf tx ctx hour) ∧
    v.allowed = decide (v.action = .allow) ∧
    v.rules_checked = rules.length ∧
    v.rules_passed = rules.length - v.failed_rules.length ∧
    (∀ r ∈ rules, (r.check tx ctx hour).isOk = true) := by
  unfold evaluate_transaction at h
  cases hrc : runChecks tx ctx hour rules ([], [], .allow) with
  | error e =>
      rw [hrc, except_error_bind] at h
      exact Except.noConfusion h
  | ok trip =>
      rw [hrc, except_ok_bind] at h
      obtain ⟨fr, rs, a⟩ := trip
      cases hcr : calculateRisk tx ctx fr with
      | error e =>
          simp only [hcr, except_error_bind] at h
          exact Except.noConfusion h
      | ok risk =>
          simp only [hcr, except_ok_bind, Except.ok.injEq] at h
          obtain ⟨h1, h2, h3, h4⟩ := runChecks_ok_char tx ctx hour rules [] [] .allow _ hrc
          simp only [List.nil_append] at h1 h2 h3
          subst h
          exact ⟨by simpa using h3, by simpa using h1, by simpa using h2, rfl, rfl,
            by simp [h1], h4⟩

lemma mem_insertByPriority (r x : RuleRow) (l : List RuleRow) :
    x ∈ insertByPriority r l ↔ x = r ∨ x ∈ l := by
  induction l with
  | nil => simp [insertByPriority]
  | cons y ys ih =>
      by_cases hp : r.priority > y.priority <;> simp [insertByPriority, hp, ih] <;> tauto

lemma mem_sortByPriority (x : RuleRow) (l : List RuleRow) :
    x ∈ sortByPriority l ↔ x ∈ l := by
  suffices h : ∀ (l : List RuleRow) (acc : List RuleRow),
      x ∈ l.foldl (fun acc r => insertByPriority r acc) acc ↔ x ∈ acc ∨ x ∈ l by
    simpa using h l []
  intro l
  induction l with
  | nil => intro acc; simp
  | cons y ys ih =>
      intro acc
      rw [List.foldl_cons, ih, mem_insertByPriority]
      simp only [List.mem_cons]
      tauto

lemma mem_insertByTimestamp (r x : ApprovalRequest) (l : List ApprovalRequest) :
    x ∈ insertByTimestamp r l ↔ x = r ∨ x ∈ l := by
  induction l with
  | nil => simp [insertByTimestamp]
  | cons y ys ih =>
      by_cases hp : r.timestamp > y.timestamp <;>
        simp [insertByTimestamp, hp, ih] <;> tauto

lemma mem_sortByTimestamp (x : ApprovalRequest) (l : List ApprovalRequest) :
    x ∈ sortByTimestamp l ↔ x ∈ l := by
  suffices h : ∀ (l : List ApprovalRequest) (acc : List ApprovalRequest),
      x ∈ l.foldl (fun acc r => insertByTimestamp r acc) acc ↔ x ∈ acc ∨ x ∈ l by
    simpa using h l []
  intro l
  induction l with
  | nil => intro acc; simp
  | cons y ys ih =>
      intro acc
      rw [List.foldl_cons, ih, mem_insertByTimestamp]
      simp only [List.mem_cons]
      tauto

lemma rowsToRules_error_of_bad (rows : List RuleRow)
    (h : ∃ row ∈ rows, ∃ e, rowToRule row = .error e) :
    ∃ e, rowsToRules rows = .error e := by
  induction rows with
  | nil => simp at h
  | cons x xs ih =>
      obtain ⟨row, hmem, e, he⟩ := h
      rcases List.mem_cons.mp hmem with rfl | hmem
      · exact ⟨e, by rw [rowsToRules, he, except_error_bind]⟩
      · cases hx : rowToRule x with
        | error e₂ => exact ⟨e₂, by rw [rowsToRules, hx, except_error_bind]⟩
        | ok rule =>
            obtain ⟨e₃, he₃⟩ := ih ⟨row, hmem, e, he⟩
            exact ⟨e₃, by rw [rowsToRules, hx, except_ok_bind, he₃, except_error_bind]⟩

lemma except_isOk_iff {α : Type} (x : Except String α) :
    x.isOk = true ↔ ∃ a, x = .ok a := by
  cases x <;> simp [Except.isOk, Except.toBool]

lemma checkSpendingLimit_isOk (params : Params) (tx : Transaction) (ctx : Context)
    (h1 : (pyFloat (params.getD "amount" (.num 0))).isOk = true)
    (h2 : (pyFloat tx.value).isOk = true) :
    (checkSpendingLimit params tx ctx).isOk = true := by
  obtain ⟨la, hla⟩ := (except_isOk_iff _).mp h1
  obtain ⟨tv, htv⟩ := (except_isOk_iff _).mp h2
  simp only [checkSpendingLimit, hla, htv, except_ok_bind]
  split_ifs <;> rfl

lemma checkWhitelist_isOk (params : Params) (tx : Transaction)
    (h : (pyLowerList (params.getD "addresses" (.list []))).isOk = true) :
    (checkWhitelist params tx).isOk = true := by
  obtain ⟨lst, hlst⟩ := (except_isOk_iff _).mp h
  simp only [checkWhitelist, hlst, except_ok_bind]
  split_ifs <;> rfl

lemma checkBlacklist_isOk (params : Params) (tx : Transaction)
    (h : (pyLowerList (params.getD "addresses" (.list []))).isOk = true) :
    (checkBlacklist params tx).isOk = true := by
  obtain ⟨lst, hlst⟩ := (except_isOk_iff _).mp h
  simp only [checkBlacklist, hlst, except_ok_bind]
  split_ifs <;> rfl

lemma checkTimeRestriction_isOk (params : Params) (hour : ℤ)
    (s a b : String) (sh eh : ℤ)
    (hm : params.getD "allowed_hours" (.str "00:00-23:59") = .str s)
    (hsp : pySplit s '-' = [a, b])
    (ha : parsePyInt ((pySplit a ':').headD "") = some sh)
    (hb : parsePyInt ((pySplit b ':').headD "") = some eh) :
    (checkTimeRestriction params hour).isOk = true := by
  simp only [checkTimeRestriction, hm, hsp, ha, hb]
  split_ifs <;> rfl

lemma checkAmountThreshold_isOk (params : Params) (tx : Transaction)
    (h1 : (pyFloat (params.getD "threshold" (.num 0))).isOk = true)
    (h2 : (pyFloat tx.value).isOk = true) :
    (checkAmountThreshold params tx).isOk = true := by
  obtain ⟨la, hla⟩ := (except_isOk_iff _).mp h1
  obtain ⟨tv, htv⟩ := (except_isOk_iff _).mp h2
  simp only [checkAmountThreshold, hla, htv, except_ok_bind]
  split_ifs <;> rfl

lemma checkDailyCount_isOk (params : Params) (ctx : Context)
    (h : (pyInt (params.getD "max_count" (.num 10))).isOk = true) :
    (checkDailyCount params ctx).isOk = true := by
  obtain ⟨mc, hmc⟩ := (except_isOk_iff _).mp h
  simp only [checkDailyCount, hmc, except_ok_bind]
  split_ifs <;> rfl

lemma check_isOk_of_shapeValid (r : Rule) (tx : Transaction) (ctx : Context) (hour : ℤ)
    (hs : shapeValid r = true) (hv : (pyFloat tx.value).isOk = true) :
    (r.check tx ctx hour).isOk = true := by
  unfold Rule.check
  cases henb : r.enabled with
  | false => simp [henb, Except.isOk, Except.toBool]
  | true =>
      rw [if_neg (by simp [henb])]
      unfold shapeValid at hs
      cases hrt : r.rule_type <;> rw [hrt] at hs <;> dsimp only at hs ⊢
      case spending_limit => exact checkSpendingLimit_isOk _ _ _ hs hv
      case address_whitelist => exact checkWhitelist_isOk _ _ hs
      case address_blacklist => exact checkBlacklist_isOk _ _ hs
      case time_restriction =>
          cases hm : r.parameters.getD "allowed_hours" (.str "00:00-23:59") with
          | num q => rw [hm] at hs; simp at hs
          | list xs => rw [hm] at hs; simp at hs
          | str s =>
              rw [hm] at hs
              dsimp only at hs
              rcases hsp : pySplit s '-' with _ | ⟨a, _ | ⟨b, _ | _⟩⟩
              · simp only [hsp] at hs
                exact Bool.noConfusion hs
              · simp only [hsp] at hs
                exact Bool.noConfusion hs
              · simp only [hsp, Bool.and_eq_true] at hs
                obtain ⟨sh, hsh⟩ := Option.isSome_iff_exists.mp hs.1
                obtain ⟨eh, heh⟩ := Option.isSome_iff_exists.mp hs.2
                exact checkTimeRestriction_isOk _ hour s a b sh eh hm hsp hsh heh
              · simp only [hsp] at hs
                exact Bool.noConfusion hs
      case amount_threshold => exact checkAmountThreshold_isOk _ _ hs hv
      case daily_transaction_count => exact checkDailyCount_isOk _ _ hs

lemma runChecks_ok_of (tx : Transaction) (ctx : Context) (hour : ℤ) :
    ∀ (rules : List Rule) (acc : List String × List String × RuleAction),
      (∀ r ∈ rules, (r.check tx ctx hour).isOk = true) →
      ∃ out, runChecks tx ctx hour rules acc = .ok out := by
  intro rules
  induction rules with
  | nil => intro acc _; exact ⟨acc, rfl⟩
  | cons x xs ih =>
      rintro ⟨fr, rs, a⟩ hok
      obtain ⟨⟨p, m⟩, hpm⟩ := (except_isOk_iff _).mp (hok x (by simp))
      have hrest : ∀ r ∈ xs, (r.check tx ctx hour).isOk = true :=
        fun r hr => hok r (by simp [hr])
      cases p with
      | true =>
          obtain ⟨out, hout⟩ := ih (fr, rs, a) hrest
          exact ⟨out, by simp [runChecks, hpm, hout]⟩
      | false =>
          obtain ⟨out, hout⟩ :=
            ih (fr ++ [x.rule_name], rs ++ [m], updateAction a x.action) hrest
          exact ⟨out, by simp [runChecks, hpm, hout]⟩

lemma calculateRisk_isOk (tx : Transaction) (ctx : Context) (failed : List String)
    (hv : (pyFloat tx.value).isOk = true) :
    (calculateRisk tx ctx failed).isOk = true := by
  obtain ⟨tv, htv⟩ := (except_isOk_iff _).mp hv
  simp only [calculateRisk, htv, except_ok_bind]
  split_ifs <;> rfl

lemma evaluate_ok_of (rules : List Rule) (tx : Transaction) (ctx : Context) (hour : ℤ)
    (hok : ∀ r ∈ rules, (r.check tx ctx hour).isOk = true)
    (hv : (pyFloat tx.value).isOk = true) :
    ∃ v, evaluate_transaction rules tx ctx hour = .ok v := by
  obtain ⟨⟨fr, rs, a⟩, htrip⟩ := runChecks_ok_of tx ctx hour rules ([], [], .allow) hok
  obtain ⟨l, hl⟩ := (except_isOk_iff _).mp (calculateRisk_isOk tx ctx fr hv)
  have hok2 : (evaluate_transaction rules tx ctx hour).isOk = true := by
    unfold evaluate_transaction
    rw [htrip, except_ok_bind]
    simp only [hl, except_ok_bind]
    rfl
  exact (except_isOk_iff _).mp hok2

lemma map_eq_self_of {α : Type} (f : α → α) (l : List α)
    (h : ∀ x ∈ l, f x = x) : l.map f = l := by
  induction l with
  | nil => rfl
  | cons x xs ih =>
      rw [List.map_cons, h x (by simp), ih fun y hy => h y (by simp [hy])]

lemma calculateRisk_eq (tx : Transaction) (ctx : Context) (failed : List String)
    (q : ℚ) (h : pyFloat tx.value = .ok q) :
    calculateRisk tx ctx failed =
      .ok (riskBandSpec (25 * (failed.length : ℤ) + amountBonusSpec q +
        freqBonusSpec ctx.daily_transaction_count)) := by
  have h110 : (mkRat 1 10 : ℚ) = 1/10 := by rw [Rat.mkRat_eq_div]; norm_num
  have hamount : (if q > 10 then (30 : ℤ) else if q > 1 then 15
      else if q > mkRat 1 10 then 5 else 0) = amountBonusSpec q := by
    unfold amountBonusSpec
    rw [h110]
    split_ifs <;> first | rfl | linarith
  have hfreq : (if ctx.daily_transaction_count > 50 then (20 : ℤ)
      else if ctx.daily_transaction_count > 20 then 10 else 0) =
      freqBonusSpec ctx.daily_transaction_count := by
    unfold freqBonusSpec
    split_ifs <;> first | rfl | omega
  simp only [calculateRisk, h, except_ok_bind, hamount, hfreq]
  have hmul : (failed.length : ℤ) * 25 = 25 * (failed.length : ℤ) := mul_comm _ _
  rw [hmul]
  unfold riskBandSpec
  split_ifs <;> first | rfl | omega

lemma amountBonusSpec_mono {q q₂ : ℚ} (h : q ≤ q₂) :
    amountBonusSpec q ≤ amountBonusSpec q₂ := by
  have h110 : (mkRat 1 10 : ℚ) = 1/10 := by rw [Rat.mkRat_eq_div]; norm_num
  unfold amountBonusSpec
  rw [h110]
  split_ifs <;> first | omega | linarith

lemma amountBonusSpec_nonneg (q : ℚ) : 0 ≤ amountBonusSpec q := by
  unfold amountBonusSpec
  split_ifs <;> omega

lemma riskBandSpec_mono {s s₂ : ℤ} (h : s ≤ s₂) :
    (riskBandSpec s).rank ≤ (riskBandSpec s₂).rank := by
  unfold riskBandSpec
  split_ifs <;> (try simp [RiskLevel.rank]) <;> omega

lemma evaluate_action_iff (rules : List Rule) (tx : Transaction) (ctx : Context)
    (hour : ℤ) (v : Verdict) (h : evaluate_transaction rules tx ctx hour = .ok v) :
    (v.action = .deny ↔ ∃ r ∈ rules, checkFailsB tx ctx hour r = true ∧ r.action = .deny) ∧
    (v.action = .require_approval ↔
      (∃ r ∈ rules, checkFailsB tx ctx hour r = true ∧ r.action = .require_approval) ∧
      ∀ r ∈ rules, checkFailsB tx ctx hour r = true → r.action ≠ .deny) ∧
    (v.action = .allow ↔
      ∀ r ∈ rules, checkFailsB tx ctx hour r = true → r.action = .allow) ∧
    v.allowed = decide (v.action = .allow) := by
  obtain ⟨hact, _, _, hallow, _, _, _⟩ := evaluate_ok_char rules tx ctx hour v h
  refine ⟨?_, ?_, ?_, hallow⟩
  · rw [hact, foldAction_eq_deny]
    simp [List.mem_filter, and_assoc]
  · rw [hact, foldAction_eq_ra]
    simp [List.mem_filter, and_assoc]
  · rw [hact, foldAction_eq_allow]
    simp [List.mem_filter, and_assoc]

/-- C1: the verdict of `evaluate_transaction` combines failing rules by
most-restrictive-wins: the final action is deny iff some cleanly-failing
rule has action deny, require_approval iff some failing rule has action
require_approval and none has deny, and allow iff every failing rule has
action allow; `allowed` is true iff the final action is allow; and the
action and allowed fields are invariant under any permutation of the rule
list, hence independent of encounter order and of priority values. -/
theorem evaluate_most_restrictive_wins (rules : List Rule) (tx : Transaction)
    (ctx : Context) (hour : ℤ) (v : Verdict)
    (h : evaluate_transaction rules tx ctx hour = .ok v) :
    (v.action = .deny ↔ ∃ r ∈ rules, checkFailsB tx ctx hour r = true ∧ r.action = .deny) ∧
    (v.action = .require_approval ↔
      (∃ r ∈ rules, checkFailsB tx ctx hour r = true ∧ r.action = .require_approval) ∧
      ∀ r ∈ rules, checkFailsB tx ctx hour r = true → r.action ≠ .deny) ∧
    (v.action = .allow ↔
      ∀ r ∈ rules, checkFailsB tx ctx hour r = true → r.action = .allow) ∧
    (v.allowed = true ↔ v.action = .allow) ∧
    ∀ rules₂ v₂, rules.Perm rules₂ → evaluate_transaction rules₂ tx ctx hour = .ok v₂ →
      v₂.action = v.action ∧ v₂.allowed = v.allowed := by
  obtain ⟨hd, hra, hal, hdec⟩ := evaluate_action_iff rules tx ctx hour v h
  refine ⟨hd, hra, hal, by rw [hdec]; simp, ?_⟩
  intro rules₂ v₂ hperm h₂
  obtain ⟨hd₂, hra₂, hal₂, hdec₂⟩ := evaluate_action_iff rules₂ tx ctx hour v₂ h₂
  have hmem : ∀ r : Rule, r ∈ rules ↔ r ∈ rules₂ := fun r => hperm.mem_iff
  have haction : v₂.action = v.action := by
    cases hv : v.action with
    | deny =>
        obtain ⟨r, hr, hf, ha⟩ := hd.mp hv
        exact hd₂.mpr ⟨r, (hmem r).mp hr, hf, ha⟩
    | require_approval =>
        obtain ⟨⟨r, hr, hf, ha⟩, hnone⟩ := hra.mp hv
        exact hra₂.mpr ⟨⟨r, (hmem r).mp hr, hf, ha⟩,
          fun r₂ hr₂ hf₂ => hnone r₂ ((hmem r₂).mpr hr₂) hf₂⟩
    | allow =>
        exact hal₂.mpr fun r hr hf => hal.mp hv r ((hmem r).mpr hr) hf
  exact ⟨haction, by rw [hdec₂, hdec, haction]⟩

/-- Witness for C1: with one always-failing deny rule and one always-failing
require_approval rule, the verdict's action is deny. -/
theorem evaluate_most_restrictive_wins_witness :
    ∃ v, evaluate_transaction [denyRule, raRule] tx0 ctx0 12 = .ok v ∧
      v.action = .deny := by
  refine ⟨_, rfl, ?_⟩
  exact (evaluate_most_restrictive_wins [denyRule, raRule] tx0 ctx0 12 _ rfl).1.mpr
    ⟨denyRule, by simp, rfl, rfl⟩

/-- C10: a rule that fails with configured action allow is still appended to
`failed_rules` and `reasons` but never changes the running action, so an
evaluation can end allowed with action allow while `failed_rules` is
non-empty and `rules_passed < rules_checked`. -/
theorem failed_allow_rules_recorded (rules : List Rule) (tx : Transaction)
    (ctx : Context) (hour : ℤ) (v : Verdict)
    (h : evaluate_transaction rules tx ctx hour = .ok v) :
    (∀ r ∈ rules, checkFailsB tx ctx hour r = true →
      r.rule_name ∈ v.failed_rules ∧ reasonOf tx ctx hour r ∈ v.reasons) ∧
    (∀ a, updateAction a .allow = a) ∧
    ((∀ r ∈ rules, checkFailsB tx ctx hour r = true → r.action = .allow) →
      v.action = .allow ∧ v.allowed = true) ∧
    v.rules_passed = rules.length - v.failed_rules.length ∧
    ∃ rules₂ tx₂ ctx₂ hour₂ v₂,
      evaluate_transaction rules₂ tx₂ ctx₂ hour₂ = .ok v₂ ∧ v₂.allowed = true ∧
      v₂.action = .allow ∧ v₂.failed_rules ≠ [] ∧
      v₂.rules_passed < v₂.rules_checked := by
  obtain ⟨hact, hfr, hrs, hdec, hchk, hpass, _⟩ := evaluate_ok_char rules tx ctx hour v h
  refine ⟨?_, updateAction_allow_right, ?_, hpass, ?_⟩
  · intro r hr hf
    constructor
    · rw [hfr]; exact List.mem_map_of_mem _ (List.mem_filter.mpr ⟨hr, hf⟩)
    · rw [hrs]; exact List.mem_map_of_mem _ (List.mem_filter.mpr ⟨hr, hf⟩)
  · intro hall
    have hallow : v.action = .allow := by
      rw [hact, foldAction_eq_allow]
      exact ⟨rfl, fun r hrf =>
        hall r (List.mem_filter.mp hrf).1 (List.mem_filter.mp hrf).2⟩
    exact ⟨hallow, by rw [hdec, hallow]; simp⟩
  · exact ⟨[allowFailRule], tx0, ctx0, 12, _, rfl, rfl, rfl, by simp, by decide⟩

/-- Witness for C10: a single failing allow rule yields an allowed verdict
with a non-empty failed list. -/
theorem failed_allow_rules_recorded_witness :
    ∃ v, evaluate_transaction [allowFailRule] tx0 ctx0 12 = .ok v ∧
      v.allowed = true ∧ v.failed_rules ≠ [] := by
  refine ⟨_, rfl, ?_, by simp⟩
  exact ((failed_allow_rules_recorded [allowFailRule] tx0 ctx0 12 _ rfl).2.2.1
    (fun r hr _ => by rcases List.mem_singleton.mp hr with rfl; rfl)).2

/-- C2: `check_ai_transaction` evaluates its five gates in the fixed order
single-tx limit, hourly limit, daily limit, hourly frequency, approval
threshold / lockdown flag; the first failing gate yields allowed = false and
requires_approval = true and appends exactly one approval request in status
pending carrying that gate's reason, and when no gate fails the result is
allowed = true with the request store untouched — proved as extensional
equality with the find-first-gate model transcribed from the spec. -/
theorem check_ai_transaction_gates (th : Thresholds)
    (hourly_spent daily_spent : ℚ) (hourly_tx_count : ℕ)
    (from_address to_address : String) (amount : ℚ) (currency : String)
    (reqs : List ApprovalRequest) (newId : String) (now expires : ℤ) :
    check_ai_transaction th hourly_spent daily_spent hourly_tx_count
      from_address to_address amount currency reqs newId now expires =
    checkGatesSpec th hourly_spent daily_spent hourly_tx_count
      from_address to_address amount currency reqs newId now expires := by
  unfold check_ai_transaction checkGatesSpec gateList
  by_cases h4 : hourly_tx_count ≥ th.max_tx_per_hour <;>
    cases h1 : PyNum.ltOf amount th.max_single_tx <;>
    cases h2 : PyNum.ltOf (hourly_spent + amount) th.hourly_limit <;>
    cases h3 : PyNum.ltOf (daily_spent + amount) th.daily_limit <;>
    cases h5 : PyNum.ltOf amount th.approval_threshold <;>
    cases h6 : th.require_approval <;>
    simp [List.find?, h1, h2, h3, h4, h5, h6]

/-- C3 counterexample: a stored request that is pending and already past its
`expires_at` at read time 0 is listed with its stored status pending, not
with effective status expired. -/
theorem listing_reports_stored_pending :
    (get_approval_requests [pendingPastReq] none).1 = [pendingPastReq] ∧
    pendingPastReq.status = .pending ∧
    pendingPastReq.expires_at < 0 ∧
    pendingPastReq.status ≠ .expired ∧
    (get_approval_requests [pendingPastReq] none).2 = [pendingPastReq] := by
  exact ⟨rfl, rfl, by decide, by decide, rfl⟩

/-- C3 amended: listing approval requests returns the stored rows verbatim
(filtered by the requested status, ordered by timestamp) and leaves the
store unchanged; no pending-to-expired mapping happens on read, so a pending
request past its `expires_at` is still reported as pending. -/
theorem listing_returns_rows_verbatim (reqs : List ApprovalRequest)
    (st : Option ApprovalStatus) :
    (get_approval_requests reqs st).2 = reqs ∧
    ∀ r, r ∈ (get_approval_requests reqs st).1 ↔
      r ∈ reqs ∧ (st = none ∨ st = some r.status) := by
  refine ⟨rfl, fun r => ?_⟩
  unfold get_approval_requests
  cases st with
  | none => simp [mem_sortByTimestamp]
  | some s => simp [mem_sortByTimestamp, List.mem_filter, eq_comm]

/-- Witness for C3's amended theorem at a pending request past expiry. -/
theorem listing_returns_rows_verbatim_witness :
    pendingPastReq ∈ (get_approval_requests [pendingPastReq] none).1 ∧
    (get_approval_requests [pendingPastReq] none).2 = [pendingPastReq] := by
  have h := listing_returns_rows_verbatim [pendingPastReq] none
  exact ⟨(h.2 pendingPastReq).mpr ⟨by simp, Or.inl rfl⟩, h.1⟩

/-- C4 counterexample: an AI Spending History record with approved = false
inside the window is counted by `getTransactionCount` (1, not the 0 that a
count over approved records only would give), although it contributes
nothing to `getSpending`. -/
theorem tx_count_includes_unapproved :
    unapprovedRec.approved = false ∧
    getTransactionCount [unapprovedRec] 0 = 1 ∧
    getTransactionCount (List.filter (fun r => r.approved) [unapprovedRec]) 0 = 0 ∧
    getSpending [unapprovedRec] 0 = 0 := by
  exact ⟨rfl, rfl, rfl, rfl⟩

/-- C4 amended: `hourly_spent`/`daily_spent` are computed only over approved
history records (appending an unapproved in-window record leaves both sums
unchanged, and the sums coincide with the sums over the approved
sub-history), but `hourly_tx_count` counts every in-window record, approved
or not. -/
theorem spending_approved_only_count_all (hist : List HistoryRecord)
    (cutoff : ℤ) (r : HistoryRecord)
    (hr : r.approved = false) (ht : cutoff < r.timestamp) :
    getSpending (hist ++ [r]) cutoff = getSpending hist cutoff ∧
    getTransactionCount (hist ++ [r]) cutoff = getTransactionCount hist cutoff + 1 ∧
    getSpending hist cutoff = getSpending (hist.filter fun x => x.approved) cutoff := by
  refine ⟨?_, ?_, ?_⟩
  · unfold getSpending
    rw [List.filter_append]
    simp [hr]
  · unfold getTransactionCount
    rw [List.filter_append]
    simp [ht]
  · unfold getSpending
    induction hist with
    | nil => rfl
    | cons x xs ih =>
        by_cases hx : x.approved <;> by_cases hcx : cutoff < x.timestamp <;>
          simp [List.filter_cons, hx, hcx, ih]

/-- Witness for C4's amended theorem at a concrete unapproved record. -/
theorem spending_approved_only_count_all_witness :
    unapprovedRec.approved = false ∧ (0 : ℤ) < unapprovedRec.timestamp ∧
    getSpending ([] ++ [unapprovedRec]) 0 = getSpending [] 0 ∧
    getTransactionCount ([] ++ [unapprovedRec]) 0 = getTransactionCount [] 0 + 1 := by
  have h := spending_approved_only_count_all [] 0 unapprovedRec rfl (by decide)
  exact ⟨rfl, by decide, h.1, h.2.1⟩

/-- C5 counterexample: `create_rule` with the unknown kind "not_a_kind"
stores the rule (the table is no longer empty) and is not rejected; the
failure only surfaces later, when `get_rules` raises while parsing the
stored row, so the rule set observable via listing has changed. -/
theorem create_rule_stores_unknown_kind :
    (create_rule [] "not_a_kind" "bad" [] "deny" true 0).2 ≠ [] ∧
    get_rules (create_rule [] "not_a_kind" "bad" [] "deny" true 0).2 true =
      .error "not_a_kind is not a valid RuleType" ∧
    get_rules [] true = .ok [] := by
  refine ⟨?_, rfl, rfl⟩
  simp [create_rule]

/-- C5 amended: `create_rule` performs no kind validation — for any
rule_type string, known or not, it appends the row verbatim and returns a
fresh id; when the kind is unknown (and the rule enabled), every subsequent
`get_rules` call fails with a parse error instead of listing the unchanged
rule set. -/
theorem create_rule_no_kind_validation (store : List RuleRow) (t rname : String)
    (ps : Params) (act : String) (prio : ℤ) (hk : parseRuleType t = none) :
    (create_rule store t rname ps act true prio).2 =
      store ++ [{ id := (create_rule store t rname ps act true prio).1,
                  rule_type := t, rule_name := rname, parameters := ps,
                  action := act, enabled := true, priority := prio }] ∧
    ∃ e, get_rules (create_rule store t rname ps act true prio).2 true = .error e := by
  refine ⟨rfl, ?_⟩
  refine rowsToRules_error_of_bad _
    ⟨{ id := (create_rule store t rname ps act true prio).1,
       rule_type := t, rule_name := rname, parameters := ps,
       action := act, enabled := true, priority := prio }, ?_, ?_⟩
  · rw [mem_sortByPriority]
    exact List.mem_filter.mpr ⟨by simp [create_rule], rfl⟩
  · exact ⟨t ++ " is not a valid RuleType", by simp [rowToRule, hk]⟩

/-- Witness for C5's amended theorem at the unknown kind "not_a_kind". -/
theorem create_rule_no_kind_validation_witness :
    parseRuleType "not_a_kind" = none ∧
    ∃ e, get_rules (create_rule [] "not_a_kind" "bad" [] "deny" true 0).2 true =
      .error e := by
  exact ⟨rfl, (create_rule_no_kind_validation [] "not_a_kind" "bad" [] "deny" 0 rfl).2⟩

/-- C6 counterexample: a spending-limit rule whose amount parameter is the
non-numeric string "abc" makes `evaluate_transaction` abort with the raised
conversion error instead of returning a verdict that treats the rule as
failed. -/
theorem evaluate_aborts_on_bad_shape :
    evaluate_transaction [badAmountRule] tx0 ctx0 12 =
      .error "could not convert string to float: abc" := rfl

/-- C6 amended: `evaluate_transaction` returns a complete verdict whenever
every rule's parameters are well-shaped for its kind (missing keys are
covered by defaults) and the transaction value parses; a rule with malformed
parameter values raises and aborts the whole evaluation instead of being
treated as a failed check. -/
theorem evaluate_total_of_wellShaped (rules : List Rule) (tx : Transaction)
    (ctx : Context) (hour : ℤ)
    (hs : ∀ r ∈ rules, shapeValid r = true)
    (hv : (pyFloat tx.value).isOk = true) :
    ∃ v, evaluate_transaction rules tx ctx hour = .ok v ∧
      v.rules_checked = rules.length := by
  obtain ⟨v, hvv⟩ := evaluate_ok_of rules tx ctx hour
    (fun r hr => check_isOk_of_shapeValid r tx ctx hour (hs r hr) hv) hv
  exact ⟨v, hvv, (evaluate_ok_char rules tx ctx hour v hvv).2.2.2.2.1⟩

/-- Witness for C6's amended theorem on a well-shaped whitelist rule. -/
theorem evaluate_total_of_wellShaped_witness :
    (∀ r ∈ [denyRule], shapeValid r = true) ∧
    ∃ v, evaluate_transaction [denyRule] tx0 ctx0 12 = .ok v ∧
      v.rules_checked = [denyRule].length := by
  refine ⟨?_, evaluate_total_of_wellShaped [denyRule] tx0 ctx0 12 ?_ rfl⟩ <;>
    · intro r hr
      rw [List.mem_singleton] at hr
      subst hr
      rfl

/-- C8: the risk level returned by `_calculate_risk` is exactly the banding
(low below 25, medium below 50, high below 75, critical from 75) of
25 x failed-rule count + amount bonus (0/5/15/30 for value at most 0.1 /
at most 1 / at most 10 / above 10) + frequency bonus (0/10/20 for daily
count at most 20 / at most 50 / above 50), and for fixed failed-rule count
and daily count the banded level is non-decreasing in the value. -/
theorem risk_banding (tx : Transaction) (ctx : Context) (failed : List String)
    (q : ℚ) (h : pyFloat tx.value = .ok q) :
    calculateRisk tx ctx failed =
      .ok (riskBandSpec (25 * (failed.length : ℤ) + amountBonusSpec q +
        freqBonusSpec ctx.daily_transaction_count)) ∧
    ∀ q₂ : ℚ, q ≤ q₂ →
      (riskBandSpec (25 * (failed.length : ℤ) + amountBonusSpec q +
        freqBonusSpec ctx.daily_transaction_count)).rank ≤
      (riskBandSpec (25 * (failed.length : ℤ) + amountBonusSpec q₂ +
        freqBonusSpec ctx.daily_transaction_count)).rank := by
  refine ⟨calculateRisk_eq tx ctx failed q h, fun q₂ hq => riskBandSpec_mono ?_⟩
  have := amountBonusSpec_mono hq
  omega

/-- Witness for C8 with one failed rule, value 1 and an empty context. -/
theorem risk_banding_witness :
    pyFloat tx0.value = .ok 1 ∧
    calculateRisk tx0 ctx0 ["r"] =
      .ok (riskBandSpec (25 * ((["r"] : List String).length : ℤ) +
        amountBonusSpec 1 + freqBonusSpec ctx0.daily_transaction_count)) := by
  exact ⟨rfl, (risk_banding tx0 ctx0 ["r"] 1 rfl).1⟩

/-- C9: a spending_limit check fails (returns passed = false) iff, with a
per_transaction type parameter, the transaction value strictly exceeds the
amount (equality passes), and otherwise iff the context's type-keyed period
spending plus the value strictly exceeds the amount. -/
theorem spending_limit_boundary (params : Params) (tx : Transaction)
    (ctx : Context) (a v : ℚ)
    (ha : pyFloat (params.getD "amount" (.num 0)) = .ok a)
    (hv : pyFloat tx.value = .ok v) :
    (∃ m, checkSpendingLimit params tx ctx = .ok (false, m)) ↔
      (if pyFormat (params.getD "type" (.str "daily")) = "per_transaction"
       then v > a
       else ctx.periodSpending (pyFormat (params.getD "type" (.str "daily"))) + v > a) := by
  simp only [checkSpendingLimit, ha, hv, except_ok_bind]
  split_ifs <;> simp_all

/-- Witness for C9: with a per-transaction limit of 1 and value exactly 1,
the check does not fail — the boundary is strict. -/
theorem spending_limit_boundary_witness :
    pyFloat (Params.getD [("type", PValue.str "per_transaction"),
        ("amount", PValue.num 1)] "amount" (.num 0)) = .ok 1 ∧
    ¬ ∃ m, checkSpendingLimit
        [("type", PValue.str "per_transaction"), ("amount", PValue.num 1)]
        tx0 ctx0 = .ok (false, m) := by
  refine ⟨rfl, fun hex => ?_⟩
  have hfail := (spending_limit_boundary
    [("type", PValue.str "per_transaction"), ("amount", PValue.num 1)]
    tx0 ctx0 1 1 rfl rfl).mp hex
  rw [if_pos (show pyFormat (Params.getD [("type", PValue.str "per_transaction"),
    ("amount", PValue.num 1)] "type" (PValue.str "daily")) = "per_transaction"
    from rfl)] at hfail
  exact absurd hfail (by norm_num)

/-- C7: `approve_request` and `reject_request` succeed (return true, set the
status with `approved_at` and `approved_by` recorded) exactly when a stored
request with the given id is currently pending; on an unknown id or any
other status they return false and leave the store unchanged; and a second
call on the updated store always returns false and changes nothing, so
approved/rejected is reached exactly once and only from pending. -/
theorem approval_request_cas (reqs : List ApprovalRequest) (idv actor : String)
    (now now₂ : ℤ) :
    ((approve_request reqs idv actor now).1 = true ↔
      ∃ r ∈ reqs, r.id = idv ∧ r.status = .pending) ∧
    ((approve_request reqs idv actor now).1 = false →
      (approve_request reqs idv actor now).2 = reqs) ∧
    (∀ r ∈ reqs, r.id = idv → r.status = .pending →
      { r with status := .approved, approved_at := some now,
               approved_by := some actor } ∈ (approve_request reqs idv actor now).2) ∧
    (∀ r ∈ reqs, ¬(r.id = idv ∧ r.status = .pending) →
      r ∈ (approve_request reqs idv actor now).2) ∧
    ((approve_request (approve_request reqs idv actor now).2 idv actor now₂).1 = false ∧
     (approve_request (approve_request reqs idv actor now).2 idv actor now₂).2 =
       (approve_request reqs idv actor now).2) ∧
    ((reject_request reqs idv actor now).1 = true ↔
      ∃ r ∈ reqs, r.id = idv ∧ r.status = .pending) ∧
    ((reject_request reqs idv actor now).1 = false →
      (reject_request reqs idv actor now).2 = reqs) ∧
    (∀ r ∈ reqs, r.id = idv → r.status = .pending →
      { r with status := .rejected, approved_at := some now,
               approved_by := some actor } ∈ (reject_request reqs idv actor now).2) ∧
    (reject_request (approve_request reqs idv actor now).2 idv actor now₂).1 = false := by
  refine ⟨?_, ?_, ?_, ?_, ⟨?_, ?_⟩, ?_, ?_, ?_, ?_⟩
  · simp [approve_request, List.any_eq_true]
  · intro hfalse
    have hnone : ∀ r ∈ reqs, ¬(r.id = idv ∧ r.status = .pending) := by
      simpa [approve_request, List.any_eq_false] using hfalse
    exact map_eq_self_of _ _ (fun r hr => if_neg (hnone r hr))
  · intro r hr hid hst
    exact List.mem_map.mpr ⟨r, hr, if_pos ⟨hid, hst⟩⟩
  · intro r hr hnc
    exact List.mem_map.mpr ⟨r, hr, if_neg hnc⟩
  · simp only [approve_request, List.any_map, List.any_eq_false, Function.comp]
    intro r hr
    by_cases hc : (r.id = idv ∧ r.status = .pending) <;> simp [hc]
  · simp only [approve_request]
    refine map_eq_self_of _ _ ?_
    intro x hx
    obtain ⟨r, hr, rfl⟩ := List.mem_map.mp hx
    by_cases hc : (r.id = idv ∧ r.status = .pending)
    · rw [if_pos hc, if_neg (by simp)]
    · rw [if_neg hc, if_neg hc]
  · simp [reject_request, List.any_eq_true]
  · intro hfalse
    have hnone : ∀ r ∈ reqs, ¬(r.id = idv ∧ r.status = .pending) := by
      simpa [reject_request, List.any_eq_false] using hfalse
    exact map_eq_self_of _ _ (fun r hr => if_neg (hnone r hr))
  · intro r hr hid hst
    exact List.mem_map.mpr ⟨r, hr, if_pos ⟨hid, hst⟩⟩
  · simp only [reject_request, approve_request, List.any_map, List.any_eq_false,
      Function.comp]
    intro r hr
    by_cases hc : (r.id = idv ∧ r.status = .pending) <;> simp [hc]

/-- Witness for C7: approving a concrete pending request succeeds once and
fails on repetition. -/
theorem approval_request_cas_witness :
    (approve_request [pendingPastReq] "X" "admin" 7).1 = true ∧
    (approve_request (approve_request [pendingPastReq] "X" "admin" 7).2
      "X" "admin" 8).1 = false := by
  have h := approval_request_cas [pendingPastReq] "X" "admin" 7 8
  exact ⟨h.1.mpr ⟨pendingPastReq, by simp, rfl, rfl⟩, h.2.2.2.2.1.1⟩
